import Mathlib

/-!
Shallow embedding of the legal-news feed application (`src/src/App.tsx`).

Conventions of the embedding:
* ISO-8601 timestamp strings are represented by the integer millisecond
  timestamp they denote (`Int`), so `new Date(s).getTime()` is the value
  itself and `new Date(ms).toISOString()` is the identity.  `Date.now()`
  becomes an explicit `now : Int` parameter.
* A JavaScript thrown value is either an `Error` carrying a message or
  some other value; `err instanceof Error ? err.message : ...` matches on
  that shape.
* The outcome of one `fetch`/`response.json()` round trip is an explicit
  input (`FetchOutcome`): the promise may reject, or a response arrives
  with an `ok` flag and a body whose JSON parse either throws or yields a
  `NewsResponse` envelope.
* React component state (`useState`) becomes fields of `AppState`; the
  `useEffect` keyed on `activeCategory`, the user interactions, and the
  settling of an in-flight request become a step relation on `AppState`.
-/

structure Source where
  name : String
  url : String
deriving DecidableEq

structure Article where
  articleId : String
  title : String
  description : String
  tags : List String
  publishedAt : Int
  source : Source
deriving DecidableEq

structure NewsData where
  articles : List Article
  count : Int
deriving DecidableEq

structure NewsResponse where
  status : String
  data : NewsData
deriving DecidableEq

/-- A JavaScript thrown value: an `Error` with its `.message`, or any
other thrown value (matching the `err instanceof Error` test). -/
inductive JsThrown where
  | jsError (message : String)
  | jsOther
deriving DecidableEq

/-- `err instanceof Error ? err.message : 'An error occurred'` -/
def thrownMessage : JsThrown → String
  | JsThrown.jsError m => m
  | JsThrown.jsOther => "An error occurred"

/-- Outcome of one `fetch(url)` / `response.json()` round trip:
either the fetch promise rejects (network failure), or a response
arrives carrying `response.ok` and a body whose parse either throws
or yields the envelope. -/
inductive FetchOutcome where
  | networkFailure (e : JsThrown)
  | httpResponse (ok : Bool) (body : Except JsThrown NewsResponse)

/-- `const url = tag ? `...?tag=${tag}` : '...'` — note JavaScript
truthiness: an empty-string tag selects the unscoped URL. -/
def requestUrl (tag : Option String) : String :=
  match tag with
  | some t =>
      if t = "" then "https://attorney-i.onrender.com/api/news"
      else "https://attorney-i.onrender.com/api/news?tag=" ++ t
  | none => "https://attorney-i.onrender.com/api/news"

/-- The hard-coded fallback dataset installed by the `catch` branch of
`fetchNews`, with `now` the value of `Date.now()` at fallback time. -/
def fallbackArticles (now : Int) : List Article :=
  [ { articleId := "1",
      title := "Supreme Court Rules on Corporate Liability in Environmental Cases",
      description := "The Supreme Court's landmark decision establishes new precedent for corporate environmental responsibility, potentially affecting thousands of pending cases nationwide.",
      tags := ["Corporate", "Environmental"],
      publishedAt := now - 2 * 60 * 60 * 1000,
      source := { name := "Legal Tribune", url := "https://legaltribune.com" } },
    { articleId := "2",
      title := "New Federal Tax Regulations Impact Business Deductions",
      description := "Recent IRS guidelines introduce significant changes to business expense deductions, requiring immediate attention from corporate tax attorneys.",
      tags := ["Corporate", "Tax Law"],
      publishedAt := now - 4 * 60 * 60 * 1000,
      source := { name := "Tax Law Review", url := "https://taxlawreview.com" } },
    { articleId := "3",
      title := "International Trade Law Updates Affect Cross-Border Transactions",
      description := "New bilateral trade agreements introduce complex regulatory frameworks that require careful legal analysis for multinational corporations.",
      tags := ["International", "Trade"],
      publishedAt := now - 6 * 60 * 60 * 1000,
      source := { name := "International Law Journal", url := "https://intlawjournal.com" } },
    { articleId := "4",
      title := "Criminal Justice Reform Bill Passes Senate Committee",
      description := "Proposed legislation introduces significant changes to sentencing guidelines and plea bargaining procedures in federal criminal cases.",
      tags := ["Criminal", "Legislation"],
      publishedAt := now - 8 * 60 * 60 * 1000,
      source := { name := "Criminal Law Reporter", url := "https://crimlawreporter.com" } } ]

/-- What one invocation of `fetchNews` leaves behind when it settles:
the articles written by `setArticles`, the message written by
`setError` in the `catch` branch (`none` when the `catch` branch did
not run), and the `loading` value written by the `finally` branch. -/
structure FetchResult where
  articles : List Article
  error : Option String
  loading : Bool
deriving DecidableEq

/-- The `try`/`catch`/`finally` body of `fetchNews` (App.tsx lines
157–215), as a function of the fetch outcome.  `response.ok` false and
`data.status ≠ "success"` throw the two in-code `Error` messages; any
failure lands in `catch`, which records a message and installs the
fallback dataset; `finally` always clears `loading`. -/
def fetchNews (now : Int) (tag : Option String) (outcome : FetchOutcome) : FetchResult :=
  match outcome with
  | FetchOutcome.networkFailure e =>
      { articles := fallbackArticles now, error := some (thrownMessage e), loading := false }
  | FetchOutcome.httpResponse ok body =>
      if ok = false then
        { articles := fallbackArticles now,
          error := some (thrownMessage (JsThrown.jsError "Failed to fetch news")),
          loading := false }
      else
        match body with
        | Except.error e =>
            { articles := fallbackArticles now, error := some (thrownMessage e), loading := false }
        | Except.ok resp =>
            if resp.status = "success" then
              { articles := resp.data.articles, error := none, loading := false }
            else
              { articles := fallbackArticles now,
                error := some (thrownMessage (JsThrown.jsError "API returned error status")),
                loading := false }

/-- A fetch outcome that takes the `catch` branch: promise rejection,
non-OK response, body parse failure, or envelope status ≠ "success". -/
def isFailure : FetchOutcome → Bool
  | FetchOutcome.networkFailure _ => true
  | FetchOutcome.httpResponse ok body =>
      !ok ||
        (match body with
         | Except.error _ => true
         | Except.ok resp => !(resp.status == "success"))

/-- The message of every externally thrown value involved in the outcome
is non-empty (true of real `fetch`/`response.json` rejections, whose
`Error` messages are never the empty string). -/
def messagesNonempty : FetchOutcome → Prop
  | FetchOutcome.networkFailure e => thrownMessage e ≠ ""
  | FetchOutcome.httpResponse _ body =>
      match body with
      | Except.error e => thrownMessage e ≠ ""
      | Except.ok _ => True

instance (o : FetchOutcome) : Decidable (messagesNonempty o) := by
  unfold messagesNonempty
  cases o with
  | networkFailure e => exact inferInstance
  | httpResponse ok body => cases body <;> exact inferInstance

/-- `formatTimeAgo` (App.tsx lines 29–41).  `dateMs` is the millisecond
timestamp denoted by the `dateString` argument, `nowMs` the value of
`new Date().getTime()`; `Math.floor` of the real division is `Int.fdiv`. -/
def formatTimeAgo (dateMs nowMs : Int) : String :=
  let diffInHours : Int := Int.fdiv (nowMs - dateMs) (1000 * 60 * 60)
  if diffInHours < 1 then "Just now"
  else if diffInHours = 1 then "1 hour ago"
  else if diffInHours < 24 then toString diffInHours ++ " hours ago"
  else
    let diffInDays : Int := Int.fdiv diffInHours 24
    if diffInDays = 1 then "1 day ago"
    else toString diffInDays ++ " days ago"

/-- JavaScript `String.prototype.toLowerCase`, character by character. -/
def jsToLower (s : String) : String := String.mk (s.toList.map Char.toLower)

/-- Substring test on character lists, mirroring
`String.prototype.includes`: the needle occurs contiguously in the
haystack. -/
def hasSub (needle : List Char) : List Char → Bool
  | [] => needle.isEmpty
  | c :: rest => List.isPrefixOf needle (c :: rest) || hasSub needle rest

/-- `haystack.includes(needle)` for JavaScript strings. -/
def jsIncludes (haystack needle : String) : Bool :=
  hasSub needle.toList haystack.toList

/-- The filter predicate of `filteredArticles` (App.tsx lines 225–229). -/
def articleMatches (searchQuery : String) (article : Article) : Bool :=
  (searchQuery == "") ||
    jsIncludes (jsToLower article.title) (jsToLower searchQuery) ||
    jsIncludes (jsToLower article.description) (jsToLower searchQuery)

/-- `filteredArticles` (App.tsx lines 225–229). -/
def filteredArticles (articles : List Article) (searchQuery : String) : List Article :=
  articles.filter (fun article => articleMatches searchQuery article)

/-- Inserting into a JavaScript `Set` keeps the first occurrence. -/
def addUnique (acc : List String) (x : String) : List String :=
  if x ∈ acc then acc else acc ++ [x]

/-- `Array.from(new Set(l))`: deduplicate keeping first occurrences. -/
def jsSetFrom (l : List String) : List String := l.foldl addUnique []

/-- `categories` (App.tsx line 155):
`Array.from(new Set(articles.flatMap(article => article.tags)))`. -/
def categories (articles : List Article) : List String :=
  jsSetFrom (articles.flatMap (fun article => article.tags))

/-- The payload handed to `navigator.share`. -/
structure ShareData where
  title : String
  text : String
  url : String
deriving DecidableEq

/-- `handleShare` (App.tsx lines 47–56): invoke the native share
capability with the article's title, description and source URL when it
is available (`if (navigator.share)`), otherwise do nothing.  The
returned value is the share invocation made, `none` meaning no call. -/
def handleShare (shareAvailable : Bool) (article : Article) : Option ShareData :=
  if shareAvailable then
    some { title := article.title, text := article.description, url := article.source.url }
  else
    none

/-- The `useState` fields of `App` (lines 147–152) together with the
bookkeeping that makes the asynchronous fetches explicit: the multiset
of in-flight requests (`pending`, identified by a serial number and the
tag they were invoked with), a serial counter, and the full log of
fetch invocations in order. -/
structure AppState where
  articles : List Article
  loading : Bool
  activeCategory : String
  breakingNewsEnabled : Bool
  searchQuery : String
  error : Option String
  pending : List (Nat × Option String)
  nextId : Nat
  fetchLog : List (Option String)
deriving DecidableEq

/-- Initial `useState` values (App.tsx lines 147–152), before the mount
effect has run. -/
def initState : AppState :=
  { articles := [], loading := true, activeCategory := "all",
    breakingNewsEnabled := true, searchQuery := "", error := none,
    pending := [], nextId := 0, fetchLog := [] }

/-- The synchronous head of `fetchNews` (lines 159–162): set `loading`
true, clear `error`, and issue the request for the given tag, which
becomes an in-flight pending entry. -/
def startFetch (s : AppState) (tag : Option String) : AppState :=
  { s with loading := true, error := none,
           pending := s.pending ++ [(s.nextId, tag)],
           nextId := s.nextId + 1,
           fetchLog := s.fetchLog ++ [tag] }

/-- The body of the `useEffect` keyed on `activeCategory` (lines
217–223): `fetchNews()` for "all", `fetchNews(activeCategory)`
otherwise. -/
def effectParam (c : String) : Option String :=
  if c = "all" then none else some c

/-- One category change (lines 217–223 with `setActiveCategory`): the
state takes the new category and the effect starts exactly one fetch
for it. -/
def categoryStep (s : AppState) (c : String) : AppState :=
  startFetch { s with activeCategory := c } (effectParam c)

/-- An in-flight request settles with some outcome at time `now`
(lines 163–214): the articles are fully replaced by what that
invocation of `fetchNews` produced, `error` is written only when its
`catch` branch ran, and `finally` clears `loading`. -/
def settleFetch (now : Int) (req : Nat × Option String) (o : FetchOutcome) (s : AppState) : AppState :=
  let r := fetchNews now req.2 o
  { s with articles := r.articles,
           error := match r.error with
                    | some m => some m
                    | none => s.error,
           loading := false,
           pending := s.pending.filter (fun p => p.1 != req.1) }

/-- The state right after mount: the initial state with the mount
effect's unscoped fetch already started. -/
def mountedState : AppState := categoryStep { initState with activeCategory := "all" } "all"

/-- "contains case-insensitively": the lowered needle occurs
contiguously in the lowered haystack. -/
def ciContains (haystack needle : String) : Prop :=
  (jsToLower needle).toList <:+: (jsToLower haystack).toList

theorem hasSub_iff (needle : List Char) (l : List Char) :
    hasSub needle l = true ↔ needle <:+: l := by
  induction l with
  | nil => simp [hasSub, List.isEmpty_iff, List.infix_nil]
  | cons c rest ih =>
      simp [hasSub, Bool.or_eq_true, ih, List.infix_cons_iff, List.isPrefixOf_iff_prefix]

theorem mem_addUnique (acc : List String) (x y : String) :
    y ∈ addUnique acc x ↔ y ∈ acc ∨ y = x := by
  unfold addUnique
  by_cases h : x ∈ acc
  · rw [if_pos h]
    constructor
    · exact Or.inl
    · rintro (hy | rfl)
      · exact hy
      · exact h
  · rw [if_neg h]
    simp

theorem mem_foldl_addUnique (l : List String) :
    ∀ acc x, x ∈ l.foldl addUnique acc ↔ x ∈ acc ∨ x ∈ l := by
  induction l with
  | nil => intro acc x; simp
  | cons a t ih =>
      intro acc x
      rw [List.foldl_cons, ih, mem_addUnique]
      simp only [List.mem_cons]
      tauto

theorem nodup_foldl_addUnique (l : List String) :
    ∀ acc, acc.Nodup → (l.foldl addUnique acc).Nodup := by
  induction l with
  | nil => intro acc h; exact h
  | cons a t ih =>
      intro acc h
      rw [List.foldl_cons]
      apply ih
      unfold addUnique
      by_cases hm : a ∈ acc
      · rw [if_pos hm]; exact h
      · rw [if_neg hm]
        simp [List.nodup_append, h, hm]

/-- C1: For every failing fetch (rejected promise, non-OK response,
parse failure, or envelope status ≠ "success"), `fetchNews` records a
non-empty human-readable error message and replaces the Feed with
exactly the fixed 4-article fallback dataset, whose articleIds are
"1"–"4", whose tags are [Corporate, Environmental], [Corporate, Tax
Law], [International, Trade], [Criminal, Legislation], and whose
publishedAt timestamps are exactly 2h, 4h, 6h, 8h before the current
time. -/
theorem fetch_failure_fallback (now : Int) (tag : Option String) (o : FetchOutcome)
    (hfail : isFailure o = true) (hmsg : messagesNonempty o) :
    (∃ msg, (fetchNews now tag o).error = some msg ∧ msg ≠ "") ∧
    (fetchNews now tag o).articles = fallbackArticles now ∧
    (fallbackArticles now).map Article.articleId = ["1", "2", "3", "4"] ∧
    (fallbackArticles now).map Article.tags =
      [["Corporate", "Environmental"], ["Corporate", "Tax Law"],
       ["International", "Trade"], ["Criminal", "Legislation"]] ∧
    (fallbackArticles now).map Article.publishedAt =
      [now - 2 * 60 * 60 * 1000, now - 4 * 60 * 60 * 1000,
       now - 6 * 60 * 60 * 1000, now - 8 * 60 * 60 * 1000] := by
  cases o with
  | networkFailure e =>
      exact ⟨⟨thrownMessage e, rfl, hmsg⟩, rfl, rfl, rfl, rfl⟩
  | httpResponse ok body =>
      cases ok with
      | false => exact ⟨⟨"Failed to fetch news", rfl, by decide⟩, rfl, rfl, rfl, rfl⟩
      | true =>
          cases body with
          | error e => exact ⟨⟨thrownMessage e, rfl, hmsg⟩, rfl, rfl, rfl, rfl⟩
          | ok resp =>
              have hs : ¬ (resp.status = "success") := by
                simpa [isFailure] using hfail
              refine ⟨⟨"API returned error status", ?_, by decide⟩, ?_, rfl, rfl, rfl⟩
              · simp [fetchNews, thrownMessage, hs]
              · simp [fetchNews, hs]

/-- C1 witness: a concrete non-OK response takes the fallback path. -/
theorem fetch_failure_fallback_witness :
    isFailure (FetchOutcome.httpResponse false (Except.error JsThrown.jsOther)) = true ∧
    (fetchNews 0 none (FetchOutcome.httpResponse false (Except.error JsThrown.jsOther))).articles
      = fallbackArticles 0 :=
  ⟨by decide,
   (fetch_failure_fallback 0 none
      (FetchOutcome.httpResponse false (Except.error JsThrown.jsOther))
      (by decide) (by decide)).2.1⟩

/-- C2: When the HTTP response is OK and the parsed envelope has
status "success", `fetchNews` sets the Feed to exactly the parsed
`data.articles` array and leaves the error unset. -/
theorem fetch_success_articles (now : Int) (tag : Option String) (resp : NewsResponse)
    (h : resp.status = "success") :
    (fetchNews now tag (FetchOutcome.httpResponse true (Except.ok resp))).articles
      = resp.data.articles ∧
    (fetchNews now tag (FetchOutcome.httpResponse true (Except.ok resp))).error = none := by
  constructor <;> simp [fetchNews, h]

/-- C2 witness: a successful response with an empty articles array
yields an empty Feed and no error. -/
theorem fetch_success_articles_witness :
    (fetchNews 0 none (FetchOutcome.httpResponse true
        (Except.ok { status := "success", data := { articles := [], count := 0 } }))).articles
      = [] ∧
    (fetchNews 0 none (FetchOutcome.httpResponse true
        (Except.ok { status := "success", data := { articles := [], count := 0 } }))).error
      = none :=
  fetch_success_articles 0 none
    { status := "success", data := { articles := [], count := 0 } } rfl

/-- C3: for every Feed and search query, the filtered list is a subset
of the Feed; an article of the Feed is displayed iff its title or its
description contains the query as a case-insensitive substring; and the
empty query filters nothing (identity law). -/
theorem filter_search_spec (articles : List Article) (searchQuery : String) :
    (∀ a, a ∈ filteredArticles articles searchQuery → a ∈ articles) ∧
    (∀ a, a ∈ articles →
       (a ∈ filteredArticles articles searchQuery ↔
          ciContains a.title searchQuery ∨ ciContains a.description searchQuery)) ∧
    filteredArticles articles "" = articles := by
  refine ⟨?_, ?_, ?_⟩
  · intro a ha
    exact List.mem_of_mem_filter ha
  · intro a ha
    rw [filteredArticles, List.mem_filter]
    simp only [ha, true_and]
    by_cases hq : searchQuery = ""
    · subst hq
      constructor
      · intro _
        left
        show (jsToLower "").toList <:+: (jsToLower a.title).toList
        have h0 : (jsToLower "").toList = [] := rfl
        rw [h0]
        exact List.nil_infix
      · intro _
        simp [articleMatches]
    · have hq' : (searchQuery == "") = false := by simpa using hq
      simp [articleMatches, hq', jsIncludes, hasSub_iff, ciContains]
  · rw [filteredArticles]
    apply List.filter_eq_self.mpr
    intro a _
    simp [articleMatches]

/-- C3 witness: the identity law evaluated on the fallback Feed. -/
theorem filter_search_spec_witness :
    filteredArticles (fallbackArticles 0) "" = fallbackArticles 0 :=
  (filter_search_spec (fallbackArticles 0) "").2.2

/-- C4: the relative-time formatting returns "Just now" when the
whole-hour difference is under 1, "1 hour ago" at exactly 1, "N hours
ago" for 2–23 whole hours, "1 day ago" when the floor of the whole-hour
difference divided by 24 is 1, and "N days ago" when that day count is
2 or more. -/
theorem format_time_spec (dateMs nowMs : Int) :
    (Int.fdiv (nowMs - dateMs) (1000 * 60 * 60) < 1 →
       formatTimeAgo dateMs nowMs = "Just now") ∧
    (Int.fdiv (nowMs - dateMs) (1000 * 60 * 60) = 1 →
       formatTimeAgo dateMs nowMs = "1 hour ago") ∧
    (2 ≤ Int.fdiv (nowMs - dateMs) (1000 * 60 * 60) ∧
       Int.fdiv (nowMs - dateMs) (1000 * 60 * 60) < 24 →
       formatTimeAgo dateMs nowMs =
         toString (Int.fdiv (nowMs - dateMs) (1000 * 60 * 60)) ++ " hours ago") ∧
    (24 ≤ Int.fdiv (nowMs - dateMs) (1000 * 60 * 60) ∧
       Int.fdiv (Int.fdiv (nowMs - dateMs) (1000 * 60 * 60)) 24 = 1 →
       formatTimeAgo dateMs nowMs = "1 day ago") ∧
    (2 ≤ Int.fdiv (Int.fdiv (nowMs - dateMs) (1000 * 60 * 60)) 24 →
       formatTimeAgo dateMs nowMs =
         toString (Int.fdiv (Int.fdiv (nowMs - dateMs) (1000 * 60 * 60)) 24) ++ " days ago") := by
  have e1 : Int.fdiv (nowMs - dateMs) (1000 * 60 * 60) = (nowMs - dateMs) / (1000 * 60 * 60) :=
    Int.fdiv_eq_ediv _ (by norm_num)
  have e2 : Int.fdiv ((nowMs - dateMs) / (1000 * 60 * 60)) 24
      = ((nowMs - dateMs) / (1000 * 60 * 60)) / 24 :=
    Int.fdiv_eq_ediv _ (by norm_num)
  refine ⟨?_, ?_, ?_, ?_, ?_⟩ <;> intro hyp <;>
    simp only [formatTimeAgo] <;>
    simp only [e1, e2] at hyp ⊢ <;>
    split_ifs <;>
    first
      | rfl
      | omega

/-- C4 witness: the spec's sample points 0h59m, 1h, 23h, 24h, 49h. -/
theorem format_time_spec_witness :
    formatTimeAgo 0 3540000 = "Just now" ∧
    formatTimeAgo 0 3600000 = "1 hour ago" ∧
    formatTimeAgo 0 82800000 = toString (Int.fdiv (82800000 - 0) (1000 * 60 * 60)) ++ " hours ago" ∧
    formatTimeAgo 0 86400000 = "1 day ago" ∧
    formatTimeAgo 0 176400000 =
      toString (Int.fdiv (Int.fdiv (176400000 - 0) (1000 * 60 * 60)) 24) ++ " days ago" :=
  ⟨(format_time_spec 0 3540000).1 (by decide),
   (format_time_spec 0 3600000).2.1 (by decide),
   (format_time_spec 0 82800000).2.2.1 ⟨by decide, by decide⟩,
   (format_time_spec 0 86400000).2.2.2.1 ⟨by decide, by decide⟩,
   (format_time_spec 0 176400000).2.2.2.2 (by decide)⟩

/-- C10: a future-dated article (publishedAt strictly later than the
current time) is rendered "Just now", because the negative whole-hour
difference falls into the under-1-hour branch. -/
theorem future_article_just_now (dateMs nowMs : Int) (h : nowMs < dateMs) :
    formatTimeAgo dateMs nowMs = "Just now" := by
  have e1 : Int.fdiv (nowMs - dateMs) (1000 * 60 * 60) = (nowMs - dateMs) / (1000 * 60 * 60) :=
    Int.fdiv_eq_ediv _ (by norm_num)
  have hneg : (nowMs - dateMs) / (1000 * 60 * 60) < 0 :=
    Int.ediv_neg' (by omega) (by norm_num)
  simp only [formatTimeAgo, e1]
  rw [if_pos (by omega)]

/-- C10 witness: an article published one millisecond in the future. -/
theorem future_article_just_now_witness : formatTimeAgo 1 0 = "Just now" :=
  future_article_just_now 1 0 (by decide)

/-- C5: the derived category list consists of exactly the tag values
occurring across the articles of the Feed, with duplicates collapsed. -/
theorem categories_spec (articles : List Article) :
    (∀ t, t ∈ categories articles ↔ ∃ a, a ∈ articles ∧ t ∈ a.tags) ∧
    (categories articles).Nodup := by
  constructor
  · intro t
    rw [categories, jsSetFrom, mem_foldl_addUnique]
    simp [List.mem_flatMap]
  · exact nodup_foldl_addUnique _ [] List.nodup_nil

/-- C5 witness: membership evaluated on the fallback Feed. -/
theorem categories_spec_witness :
    "Corporate" ∈ categories (fallbackArticles 0) ↔
      ∃ a, a ∈ fallbackArticles 0 ∧ "Corporate" ∈ a.tags :=
  (categories_spec (fallbackArticles 0)).1 "Corporate"

/-- C8: the share operation invokes the native share capability with
exactly the article's title, description and source URL when the
capability is available, and makes no invocation at all when it is
absent. -/
theorem share_spec (article : Article) :
    handleShare true article =
      some { title := article.title, text := article.description, url := article.source.url } ∧
    handleShare false article = none :=
  ⟨rfl, rfl⟩

/-- One step of the view: a category click (which re-runs the effect
and starts exactly one fetch), the settling of some in-flight request,
a search input, or the breaking-news toggle. -/
inductive Step : AppState → AppState → Prop where
  | setCategory (s : AppState) (c : String) :
      c ≠ s.activeCategory → Step s (categoryStep s c)
  | settleRequest (s : AppState) (now : Int) (req : Nat × Option String) (o : FetchOutcome) :
      req ∈ s.pending → Step s (settleFetch now req o s)
  | setSearch (s : AppState) (q : String) : Step s { s with searchQuery := q }
  | toggleBreaking (s : AppState) :
      Step s { s with breakingNewsEnabled := !s.breakingNewsEnabled }

/-- States reachable from the mounted application. -/
inductive Reachable : AppState → Prop where
  | init : Reachable mountedState
  | next {s t : AppState} : Reachable s → Step s t → Reachable t

/-- Reachability restricted to non-overlapping fetches: a category
change (which starts a new fetch) happens only when no request is in
flight. -/
inductive ReachableSeq : AppState → Prop where
  | init : ReachableSeq mountedState
  | category (s : AppState) (c : String) : ReachableSeq s → s.pending = [] →
      c ≠ s.activeCategory → ReachableSeq (categoryStep s c)
  | settleReq (s : AppState) (now : Int) (req : Nat × Option String) (o : FetchOutcome) :
      ReachableSeq s → req ∈ s.pending → ReachableSeq (settleFetch now req o s)
  | search (s : AppState) (q : String) : ReachableSeq s → ReachableSeq { s with searchQuery := q }
  | toggle (s : AppState) : ReachableSeq s →
      ReachableSeq { s with breakingNewsEnabled := !s.breakingNewsEnabled }

theorem pending_singleton {l : List (Nat × Option String)} {req : Nat × Option String}
    (hlen : l.length ≤ 1) (hmem : req ∈ l) : l = [req] := by
  cases l with
  | nil => cases hmem
  | cons x t =>
      cases t with
      | nil =>
          simp only [List.mem_singleton] at hmem
          rw [hmem]
      | cons y u => simp at hlen

theorem seq_inv {s : AppState} (h : ReachableSeq s) :
    s.pending.length ≤ 1 ∧ (s.loading = true ↔ s.pending ≠ []) := by
  induction h with
  | init => exact ⟨by decide, by decide⟩
  | category s c hs hp hc ih =>
      constructor
      · simp [categoryStep, startFetch, hp]
      · simp [categoryStep, startFetch, hp]
  | settleReq s now req o hs hmem ih =>
      obtain ⟨hlen, hiff⟩ := ih
      have hsing : s.pending = [req] := pending_singleton hlen hmem
      constructor
      · simp [settleFetch, hsing]
      · simp [settleFetch, hsing]
  | search s q hs ih => exact ih
  | toggle s hs ih => exact ih

/-- C6: each change of `activeCategory` to a new value is a step that
triggers exactly one new fetch invocation — with the category as the
tag when it is not "all" and unscoped when it is "all" — and the
settling of any fetch fully replaces the Feed with that invocation's
result, never merging; switching "all" → "Corporate" → "all" logs two
invocations beyond the mount fetch, the second unscoped. -/
theorem category_change_one_fetch (s : AppState) (c : String) (h : c ≠ s.activeCategory) :
    Step s (categoryStep s c) ∧
    (categoryStep s c).activeCategory = c ∧
    (categoryStep s c).fetchLog = s.fetchLog ++ [if c = "all" then none else some c] ∧
    (∀ now req o t, (settleFetch now req o t).articles = (fetchNews now req.2 o).articles) ∧
    (categoryStep (categoryStep mountedState "Corporate") "all").fetchLog =
      [none, some "Corporate", none] := by
  refine ⟨Step.setCategory s c h, rfl, rfl, fun now req o t => rfl, by decide⟩

/-- C6 witness: the "all" → "Corporate" click adds exactly one scoped
invocation to the fetch log. -/
theorem category_change_one_fetch_witness :
    (categoryStep mountedState "Corporate").fetchLog =
      mountedState.fetchLog ++ [if "Corporate" = "all" then none else some "Corporate"] :=
  (category_change_one_fetch mountedState "Corporate" (by decide)).2.2.1

/-- C7 (amended): every fetch sets `loading` true when it starts and
false when it settles, on the success path and the fallback path alike;
consequently, as long as fetches never overlap, `loading` is true
exactly while a fetch is outstanding.  (With overlapping fetches the
"exactly" direction fails — see the counterexample.) -/
theorem loading_tracks_fetch :
    (∀ s tag, (startFetch s tag).loading = true) ∧
    (∀ now req o s, (settleFetch now req o s).loading = false) ∧
    (∀ s, ReachableSeq s → (s.loading = true ↔ s.pending ≠ [])) :=
  ⟨fun s tag => rfl, fun now req o s => rfl, fun s h => (seq_inv h).2⟩

/-- C7 witness: the invariant evaluated at the mounted state. -/
theorem loading_tracks_fetch_witness :
    mountedState.loading = true ↔ mountedState.pending ≠ [] :=
  loading_tracks_fetch.2.2 mountedState ReachableSeq.init

/-- A successful response whose envelope carries no articles. -/
def okEmptyOutcome : FetchOutcome :=
  FetchOutcome.httpResponse true
    (Except.ok { status := "success", data := { articles := [], count := 0 } })

/-- The state reached when the mount fetch settles while a second,
category-scoped fetch is still in flight. -/
def overlapState : AppState :=
  settleFetch 0 (0, none) okEmptyOutcome (categoryStep mountedState "Corporate")

/-- C7 counterexample: a reachable state in which a fetch for the
current activeCategory ("Corporate") is still outstanding yet `loading`
is false — the settling of the older overlapping request cleared it. -/
theorem loading_overlap_counterexample :
    Reachable overlapState ∧ overlapState.pending ≠ [] ∧ overlapState.loading = false ∧
    overlapState.activeCategory = "Corporate" ∧
    overlapState.pending = [(1, some "Corporate")] :=
  ⟨Reachable.next
      (Reachable.next Reachable.init (Step.setCategory mountedState "Corporate" (by decide)))
      (Step.settleRequest (categoryStep mountedState "Corporate") 0 (0, none) okEmptyOutcome
        (by decide)),
   by decide, by decide, by decide, by decide⟩

/-- The article delivered by the older, stale request. -/
def staleArticle : Article :=
  { articleId := "stale", title := "Stale result", description := "from the older request",
    tags := ["Corporate"], publishedAt := 0,
    source := { name := "S", url := "https://s.example" } }

/-- The article delivered by the newest request. -/
def freshArticle : Article :=
  { articleId := "fresh", title := "Fresh result", description := "from the newest request",
    tags := ["Tax Law"], publishedAt := 0,
    source := { name := "S", url := "https://s.example" } }

def staleOutcome : FetchOutcome :=
  FetchOutcome.httpResponse true
    (Except.ok { status := "success", data := { articles := [staleArticle], count := 1 } })

def freshOutcome : FetchOutcome :=
  FetchOutcome.httpResponse true
    (Except.ok { status := "success", data := { articles := [freshArticle], count := 1 } })

/-- After the newest request (for "Corporate") has settled. -/
def raceMid : AppState :=
  settleFetch 5 (1, some "Corporate") freshOutcome (categoryStep mountedState "Corporate")

/-- After the older mount request settles last. -/
def raceFinal : AppState :=
  settleFetch 9 (0, none) staleOutcome raceMid

/-- C9: the code has no guard against an older in-flight request
settling after a newer one: in this reachable trace the most recently
requested category is "Corporate" and its response had installed
`freshArticle`, yet the later settling of the older unscoped request
overwrites the Feed with `staleArticle`. -/
theorem stale_response_overwrites :
    Reachable raceFinal ∧
    raceMid.articles = [freshArticle] ∧
    raceFinal.articles = [staleArticle] ∧
    raceFinal.activeCategory = "Corporate" ∧
    staleArticle ≠ freshArticle :=
  ⟨Reachable.next
      (Reachable.next
        (Reachable.next Reachable.init (Step.setCategory mountedState "Corporate" (by decide)))
        (Step.settleRequest (categoryStep mountedState "Corporate") 5 (1, some "Corporate")
          freshOutcome (by decide)))
      (Step.settleRequest raceMid 9 (0, none) staleOutcome (by decide)),
   by decide, by decide, by decide, by decide⟩
